import Mathlib

/-!
Verification development for the CUDA fusion-compiler lowering pass
(`torch/csrc/jit/codegen/cuda/lower_index.cpp`) and the pointwise
scheduler heuristic (`torch/csrc/jit/codegen/cuda/scheduler/pointwise.cpp`).

The embedding follows the source files closely:
* iteration domains carry a concrete extent, a parallel-type tag and
  reduction/broadcast flags (symbolic `Val*` extents are modelled as
  concrete naturals, so `extent()->isOneInt()` becomes `extent = 1`);
* the index-lowering visitor is modelled as an `Except`-valued function
  from source kernel-IR expressions to lowered kernel-IR expressions,
  with `TORCH_INTERNAL_ASSERT` failures mapped to `Except.error`;
* the pointwise 2-D break-point search is modelled as a fold over the
  candidate break points with an explicit scan state.
-/

namespace NVF

/-- Parallel-type tags of an `IterDomain`
(`ParallelType` in the source: thread/block bindings plus the
non-thread tags; `Serial` is the default non-mapped tag). -/
inductive PTy where
  | BIDx | BIDy | BIDz
  | TIDx | TIDy | TIDz
  | Vectorize | Unroll | Unswitch | Mma | Serial
deriving DecidableEq, Repr

/-- `isParallelTypeThreadDim`: TIDx/TIDy/TIDz. -/
def PTy.isThreadDim : PTy → Bool
  | .TIDx | .TIDy | .TIDz => true
  | _ => false

/-- `isParallelTypeBlockDim`: BIDx/BIDy/BIDz. -/
def PTy.isBlockDim : PTy → Bool
  | .BIDx | .BIDy | .BIDz => true
  | _ => false

/-- `isParallelTypeThread`: any TID or BID binding. -/
def PTy.isThread (p : PTy) : Bool := p.isBlockDim || p.isThreadDim

/-- `kParallelTypeThreads`: the six thread/block parallel types. -/
def kParallelTypeThreads : List PTy := [.BIDx, .BIDy, .BIDz, .TIDx, .TIDy, .TIDz]

/-- `kParallelTypeBIDs`: the block-identifier parallel types. -/
def kParallelTypeBIDs : List PTy := [.BIDx, .BIDy, .BIDz]

/-- Element data types (`DataType` in the source), as far as the claims
need them. -/
inductive DType where
  | Float | Double | Half | Int | Int32 | Bool
deriving DecidableEq, Repr

/-- One axis of a tensor's iteration space (`IterDomain`): extent,
parallel-type tag, reduction and broadcast flags.  Extents are modelled
as concrete naturals, so the source's syntactic `extent()->isOneInt()`
test becomes `extent = 1`. -/
structure IterDomain where
  extent : Nat
  ptype : PTy
  isReduction : Bool
  isBroadcast : Bool
deriving DecidableEq, Repr

/-- `IterDomain::isThread()`: the axis is mapped to a TID or BID
parallel type. -/
def IterDomain.isThread (id : IterDomain) : Bool := id.ptype.isThread

/-- Modelled from the spec: `TensorDomain::hasBlockReduction` (the method
body is not under src/) — some axis is a reduction mapped to a thread
(TID) dimension. -/
def hasBlockReduction (dom : List IterDomain) : Bool :=
  dom.any fun id => id.isReduction && id.ptype.isThreadDim

/-- Modelled from the spec: `TensorDomain::hasGridReduction` (the method
body is not under src/) — some axis is a reduction mapped to a
block-identifier (BID) dimension. -/
def hasGridReduction (dom : List IterDomain) : Bool :=
  dom.any fun id => id.isReduction && id.ptype.isBlockDim

/-- Modelled from the spec: `isTrivialIterDomain` (defined in
`lower_utils.cpp`, not under src/); the spec's data model calls an axis
trivial when its extent is 1. -/
def isTrivialIterDomain (id : IterDomain) : Bool := id.extent == 1

/-- A `kir::ForLoop` as the lowering pass sees it: its iter domain, its
loop index variable (modelled as the concrete runtime value used by the
entrance-index computation), and its `isTrivial()` flag (the method body
is not under src/, so the flag is carried explicitly). -/
structure ForLoop where
  iterDomain : IterDomain
  index : Nat
  trivial : Bool
deriving DecidableEq, Repr

/-- The slice of the `GpuLower::current()` lowering context the lowered
expressions depend on: the parallel-dimension map (`nullptr` modelled as
`none`), the thread-predicate map (`getPredicatedParallelTypes`, keyed
by tensor name) and the parallel-broadcast-domain map
(`getParallelBroadcastDomains`, keyed by tensor name). -/
structure Ctx where
  pdm : PTy → Option Nat
  threadPred : Nat → List PTy
  parallelBroadcast : Nat → List PTy

/-- `getGridCommWorkBufferSize` (lower_index.cpp): product of all
parallel-dimension extents except TID dimensions consumed by a
reduction/broadcast axis of the output domain, times the extents of all
enclosing non-trivial non-thread for loops, times the expansion
factor. -/
def getGridCommWorkBufferSize (ctx : Ctx) (td : List IterDomain)
    (forLoops : List ForLoop) (expansionFactor : Nat) : Nat :=
  let bufferSize0 : Nat := if expansionFactor == 1 then 1 else expansionFactor
  let afterPt := kParallelTypeThreads.foldl
    (fun bufferSize pt =>
      match ctx.pdm pt with
      | none => bufferSize
      | some ptDim =>
        if ptDim == 1 then bufferSize
        else if pt.isThreadDim &&
            td.any (fun outId =>
              decide (outId.ptype = pt) && (outId.isReduction || outId.isBroadcast)) then
          bufferSize
        else bufferSize * ptDim)
    bufferSize0
  forLoops.foldl
    (fun bufferSize fl =>
      if fl.trivial then bufferSize
      else if fl.iterDomain.isThread then bufferSize
      else bufferSize * fl.iterDomain.extent)
    afterPt

/-- `getGridSyncBufferSize` (lower_index.cpp): product of the BID
parallel-dimension extents not consumed by a reduction/broadcast axis of
the output domain, times the extents of all enclosing non-trivial
non-thread for loops. -/
def getGridSyncBufferSize (ctx : Ctx) (td : List IterDomain)
    (forLoops : List ForLoop) : Nat :=
  let afterPt := kParallelTypeBIDs.foldl
    (fun bufferSize pt =>
      match ctx.pdm pt with
      | none => bufferSize
      | some ptDim =>
        if ptDim == 1 then bufferSize
        else if td.any (fun outId =>
            decide (outId.ptype = pt) && (outId.isReduction || outId.isBroadcast)) then
          bufferSize
        else bufferSize * ptDim)
    (1 : Nat)
  forLoops.foldl
    (fun bufferSize fl =>
      if fl.trivial then bufferSize
      else if fl.iterDomain.isThread then bufferSize
      else bufferSize * fl.iterDomain.extent)
    afterPt

/-- `getEntranceCountGridReduce`: product of the extents of all
enclosing non-trivial non-thread for loops. -/
def getEntranceCountGridReduce (forLoops : List ForLoop) : Nat :=
  forLoops.foldl
    (fun entrances loop =>
      if loop.trivial then entrances
      else if loop.iterDomain.isThread then entrances
      else entrances * loop.iterDomain.extent)
    (1 : Nat)

/-- `getEntranceLinIndGridReduce`: linearized index over all enclosing
non-trivial non-thread for loops. -/
def getEntranceLinIndGridReduce (forLoops : List ForLoop) : Nat :=
  forLoops.foldl
    (fun linearIndex loop =>
      if loop.trivial then linearIndex
      else if loop.iterDomain.isThread then linearIndex
      else linearIndex * loop.iterDomain.extent + loop.index)
    (0 : Nat)

/-- A tensor value with its scheduled iteration domain
(`TensorView`, reduced to the data the lowering pass reads). -/
structure TensorView where
  name : Nat
  domain : List IterDomain
  dtype : DType
deriving DecidableEq, Repr

/-- A `kir::Predicate` value: either a symbolic predicate expression or
a boolean literal (`kernel()->trueVal()` is `lit true`). -/
inductive KPred where
  | sym (n : Nat)
  | lit (b : Bool)
deriving DecidableEq, Repr

/-- A `Val*` operand as the lowering pass sees it: a scalar, a
`TensorView`, or an already-indexed `kir::TensorIndex` into a view. -/
inductive KVal where
  | scalar (n : Nat) (dtype : DType)
  | tv (t : TensorView)
  | tensorIndex (t : TensorView)
deriving DecidableEq, Repr

/-- `Val::dtype()` of an operand. -/
def KVal.dtype : KVal → DType
  | .scalar _ d => d
  | .tv t => t.dtype
  | .tensorIndex t => t.dtype

/-- `Val::isScalar()`. -/
def KVal.isScalar : KVal → Bool
  | .scalar _ _ => true
  | _ => false

/-- Modelled from the spec: `Index::getConsumerIndex` (index_compute.cpp
is not under src/) replaces a `TensorView` destination by a concrete
indexed reference; modelled as the `tensorIndex` marker.  Non-tensor
operands pass through unchanged (`IndexLowering::lowerDstIndex`). -/
def lowerDstIndex : KVal → KVal
  | .tv t => .tensorIndex t
  | v => v

/-- Modelled from the spec: `Index::getProducerIndex` (index_compute.cpp
is not under src/); `IndexLowering::lowerSrcIndex` indexes a
`TensorView` source relative to the destination and passes non-tensor
operands through unchanged. -/
def lowerSrcIndex (src _dst : KVal) : KVal :=
  match src with
  | .tv t => .tensorIndex t
  | v => v

/-- A scratch-buffer allocation created by
`ir_utils::allocGlobalBufferForGridComm` (element count, element dtype,
zero-init flag). -/
structure Alloc where
  size : Nat
  dtype : DType
  zeroInit : Bool
deriving DecidableEq, Repr

/-- The payload of an indexed `WelfordOp` (outputs, init values, inputs,
allreduce flag, predicate and write predicate). -/
structure LWelford where
  outAvg : KVal
  outVar : KVal
  outN : KVal
  initAvg : KVal
  initVar : KVal
  initN : KVal
  inAvg : KVal
  inVar : Option KVal
  inN : KVal
  allreduce : Bool
  pred : Option KPred
  wpred : Option KPred
deriving DecidableEq, Repr

mutual
/-- Source kernel-IR expressions as `IndexLowering` receives them
(scheduled graph plus scope nodes and already-lowered pass-through
nodes). -/
inductive SExpr where
  | unary (opT : Nat) (out inp : KVal)
  | binary (opT : Nat) (out lhs rhs : KVal)
  | ternary (opT : Nat) (out in1 in2 in3 : KVal)
  | reduction (opT : Nat) (init : KVal) (out : TensorView) (inp : KVal)
      (allreduce : Bool) (pred wpred : Option KPred)
  | groupedReduction (opTs : List Nat) (inits : List KVal)
      (outs : List TensorView) (ins : List KVal)
      (allreduce : Bool) (pred wpred : Option KPred)
  | welford (outAvg outVar outN : TensorView)
      (initAvg initVar initN : KVal)
      (inAvg : KVal) (inVar : Option KVal) (inN : KVal)
      (allreduce : Bool) (pred wpred : Option KPred)
  | broadcast (out : TensorView) (inp : KVal) (flags : List Bool)
      (pred : Option KPred)
  | mma (out a b init : KVal) (options : Nat)
  | allocate (a : Alloc)
  | blockSync
  | gridSync
  | forLoop (fl : ForLoop) (body : SExprList)
  | ifThenElse (pred : Option KPred) (thenBody elseBody : SExprList)
/-- A scope body: a sequence of source kernel-IR expressions. -/
inductive SExprList where
  | nil
  | cons (e : SExpr) (rest : SExprList)
end

mutual
/-- Lowered kernel-IR expressions as `IndexLowering` emits them. -/
inductive LExpr where
  | unary (opT : Nat) (out inp : KVal)
  | binary (opT : Nat) (out lhs rhs : KVal)
  | ternary (opT : Nat) (out in1 in2 in3 : KVal)
  | reductionOp (opT : Nat) (init out inp : KVal) (allreduce : Bool)
      (pred wpred : Option KPred)
  | groupedReductionOp (opTs : List Nat) (inits outs ins : List KVal)
      (allreduce : Bool) (pred wpred : Option KPred)
  | gridReduction (opT : Nat) (init out inp : KVal)
      (workBuf syncBuf : Alloc) (entranceInd nEntrances : Nat)
      (allreduce : Bool) (threadPred : List PTy)
      (pred wpred : Option KPred)
  | groupedGridReduction (opTs : List Nat) (inits outs ins : List KVal)
      (workBufs : List Alloc) (syncBuf : Alloc) (allreduce : Bool)
      (threadPred : List PTy) (pred wpred : Option KPred)
  | welfordOp (w : LWelford)
  | gridWelford (w : LWelford) (varBuf avgBuf nBuf syncBuf : Alloc)
      (entranceInd nEntrances : Nat) (threadPred : List PTy)
      (pred wpred : Option KPred)
  | broadcastOp (out inp : KVal) (flags : List Bool) (pred : Option KPred)
  | gridBroadcast (out inp : KVal) (flags : List Bool)
      (workBuf syncBuf : Alloc) (pred : Option KPred)
  | mmaOp (out a b init : KVal) (options : Nat)
  | allocate (a : Alloc)
  | allocateFusedReduction
  | blockSync
  | gridSync
  | forLoop (fl : ForLoop) (body : LExprList)
  | ifThenElse (pred : Option KPred) (thenBody elseBody : LExprList)
/-- A lowered scope body: a sequence of lowered expressions. -/
inductive LExprList where
  | nil
  | cons (e : LExpr) (rest : LExprList)
end

/-- Build a lowered scope body from a plain list. -/
def LL : List LExpr → LExprList
  | [] => .nil
  | x :: r => .cons x (LL r)

/-- Concatenation of lowered scope bodies. -/
def LExprList.append : LExprList → LExprList → LExprList
  | .nil, ys => ys
  | .cons x r, ys => .cons x (r.append ys)

instance : Append LExprList := ⟨LExprList.append⟩

/-- `IndexLowering::insertAtTopLevel`: insert an expression just before
the last expression of the top-level list (the source asserts the list
is non-empty; on an empty list the model inserts at the front, a case
the lowering never produces). -/
def LExprList.insertBeforeLast (x : LExpr) : LExprList → LExprList
  | .nil => .cons x .nil
  | .cons e .nil => .cons x (.cons e .nil)
  | .cons e (.cons f r) => .cons e ((LExprList.cons f r).insertBeforeLast x)

/-- One `Allocate` node per buffer, in order. -/
def allocsLL : List Alloc → LExprList
  | [] => .nil
  | a :: r => .cons (.allocate a) (allocsLL r)

/-- The abort message of `IndexLowering::handleGridReduction` (both the
`ReductionOp` and the `GroupedReductionOp` overloads). -/
def gridSerialReductionMsg : String :=
  "Found a reduction stage that has both a non-parallelized reduction and a grid reduction. This is not supported, please use rfactor to do the serialized reduction first, then the grid reduction."

/-- The abort message of the grid-reduction check in
`IndexLowering::handle(const WelfordOp*)` (note the double space after
the first sentence in the source). -/
def gridSerialWelfordMsg : String :=
  "Found a reduction stage that has both a non-parallelized reduction and a grid reduction.  This is not supported, please use rfactor to do the serialized reduction first, then the grid reduction."

/-- The condition of the `TORCH_INTERNAL_ASSERT` guarding
`handleGridReduction`: some reduction axis is neither thread- nor
block-mapped and its extent is not the literal one. -/
def redSerialViolation (dom : List IterDomain) : Bool :=
  dom.any fun id => !id.isThread && id.isReduction && !(id.extent == 1)

/-- The condition of the corresponding assert in
`IndexLowering::handle(const WelfordOp*)`: some reduction axis is
neither thread- nor block-mapped (no extent-one exemption). -/
def welfordSerialViolation (dom : List IterDomain) : Bool :=
  dom.any fun id => !id.isThread && id.isReduction

/-- `is_within_a_loop`: some axis of the output domain is not a trivial
iter domain. -/
def isWithinALoop (dom : List IterDomain) : Bool :=
  dom.any fun id => !(isTrivialIterDomain id)

/-- `grid_broadcast_needed` in `IndexLowering::handle(const
BroadcastOp*)`: the parallel-broadcast bitmap of the output tensor has
a BIDx, BIDy or BIDz bit set. -/
def gridBroadcastNeeded (ctx : Ctx) (outName : Nat) : Bool :=
  let pb := ctx.parallelBroadcast outName
  pb.contains .BIDx || pb.contains .BIDy || pb.contains .BIDz

/-- `IndexLowering::handleGridReduction(const ReductionOp*)`: validate
the no-serial-reduction invariant, allocate the work and sync buffers
(privatized by the enclosing loops unless the op is an allreduce),
compute the entrance index/count pair, and emit the allocations followed
by the `GridReduction` node; an allreduce additionally hoists an
`AllocateFusedReduction` to the top level.  The result pairs the
expressions emitted into the current scope with the expressions hoisted
to the top level (`insertAtTopLevel` inserts before the last already
pushed top-level expression, which `atTop` captures when the op itself
is at the top level). -/
def handleGridReductionS (ctx : Ctx) (fls : List ForLoop) (atTop : Bool)
    (opT : Nat) (init : KVal) (outTv : TensorView) (outI inI : KVal)
    (allreduce : Bool) (pred wpred : Option KPred) :
    Except String (LExprList × LExprList) :=
  let dom := outTv.domain
  if redSerialViolation dom then .error gridSerialReductionMsg
  else
    let withinALoop := isWithinALoop dom
    let privatizeBuffer := !allreduce
    let reduceBuffer : Alloc :=
      ⟨getGridCommWorkBufferSize ctx dom
          (if privatizeBuffer then fls else [])
          (if allreduce && withinALoop then 2 else 1),
        outI.dtype, false⟩
    let syncBuffer : Alloc :=
      ⟨getGridSyncBufferSize ctx dom (if privatizeBuffer then fls else []),
        .Int, true⟩
    let entranceInd := if privatizeBuffer then getEntranceLinIndGridReduce fls else 0
    let nEntrances := if privatizeBuffer then getEntranceCountGridReduce fls else 1
    let threadPred := ctx.threadPred outTv.name
    let gridRed : LExpr := .gridReduction opT init outI inI reduceBuffer
      syncBuffer entranceInd nEntrances allreduce threadPred pred wpred
    let ms := LL [.allocate reduceBuffer, .allocate syncBuffer, gridRed]
    if allreduce then
      if atTop then .ok (ms.insertBeforeLast .allocateFusedReduction, .nil)
      else .ok (ms, LL [.allocateFusedReduction])
    else .ok (ms, .nil)

/-- `IndexLowering::handle(const ReductionOp*)`: index the operands,
then dispatch on the output domain — grid reduction, block reduction
(re-emitted `ReductionOp` carrying the predicates), or the serial case
(an accumulate-in-place `BinaryOp`). -/
def handleReductionOp (ctx : Ctx) (fls : List ForLoop) (atTop : Bool)
    (opT : Nat) (init : KVal) (out : TensorView) (inp : KVal)
    (allreduce : Bool) (pred wpred : Option KPred) :
    Except String (LExprList × LExprList) :=
  let dom := out.domain
  let outI := lowerDstIndex (.tv out)
  let inI := lowerSrcIndex inp (.tv out)
  if hasGridReduction dom then
    handleGridReductionS ctx fls atTop opT init out outI inI allreduce pred wpred
  else if hasBlockReduction dom then
    .ok (LL [.reductionOp opT init outI inI allreduce pred wpred], .nil)
  else
    .ok (LL [.binary opT outI outI inI], .nil)

/-- The serial case of `IndexLowering::handle(const
GroupedReductionOp*)`: one accumulate-in-place `BinaryOp` per grouped
reduction. -/
def serialGroupedEmits : List Nat → List KVal → List KVal → LExprList
  | opT :: ts, o :: os, i :: is2 =>
    .cons (.binary opT o o i) (serialGroupedEmits ts os is2)
  | _, _, _ => .nil

/-- `IndexLowering::handle(const GroupedReductionOp*)` together with its
`handleGridReduction` overload: index every output/input pair, then
dispatch.  The grid path allocates one work buffer per output (sized
with the enclosing loops unconditionally — no `privatize_buffer` gate in
this overload) plus a single shared sync buffer, and emits them followed
by one `GroupedGridReduction` node (which carries no entrance
index/count); an allreduce hoists an `AllocateFusedReduction`. -/
def handleGroupedReductionOp (ctx : Ctx) (fls : List ForLoop) (atTop : Bool)
    (opTs : List Nat) (inits : List KVal) (outs : List TensorView)
    (ins : List KVal) (allreduce : Bool) (pred wpred : Option KPred) :
    Except String (LExprList × LExprList) :=
  match outs with
  | [] => .error "getTvOutput: no TensorView output"
  | outTv :: _ =>
    let dom := outTv.domain
    let idxOuts := outs.map fun t => lowerDstIndex (.tv t)
    let idxIns := (ins.zip outs).map fun p => lowerSrcIndex p.1 (.tv p.2)
    if hasGridReduction dom then
      if redSerialViolation dom then .error gridSerialReductionMsg
      else
        let withinALoop := isWithinALoop dom
        let workBufs : List Alloc := idxOuts.map fun o =>
          ⟨getGridCommWorkBufferSize ctx dom fls
              (if allreduce && withinALoop then 2 else 1),
            o.dtype, false⟩
        let syncBuf : Alloc := ⟨getGridSyncBufferSize ctx dom fls, .Int, true⟩
        let node : LExpr := .groupedGridReduction opTs inits idxOuts idxIns
          workBufs syncBuf allreduce (ctx.threadPred outTv.name) pred wpred
        let ms := allocsLL workBufs ++ LL [.allocate syncBuf, node]
        if allreduce then
          if atTop then .ok (ms.insertBeforeLast .allocateFusedReduction, .nil)
          else .ok (ms, LL [.allocateFusedReduction])
        else .ok (ms, .nil)
    else if hasBlockReduction dom then
      .ok (LL [.groupedReductionOp opTs inits idxOuts idxIns allreduce pred wpred],
        .nil)
    else
      .ok (serialGroupedEmits opTs idxOuts idxIns, .nil)

/-- `IndexLowering::handleGridWelford`: allocate the three work buffers
(avg/var/N, one shared size) and the sync buffer, compute the entrance
pair, and emit the indexed block-level welford separately first when
`block_reduce_separated` (block reduction present and not an allreduce);
in that case the `GridWelford` node receives an always-true predicate
while the block-level op keeps the original predicate, and the original
write predicate stays on the `GridWelford`. -/
def handleGridWelford (ctx : Ctx) (fls : List ForLoop) (atTop : Bool)
    (outTv : TensorView) (w : LWelford) :
    Except String (LExprList × LExprList) :=
  let dom := outTv.domain
  let withinALoop := isWithinALoop dom
  let privatizeBuffer := !w.allreduce
  let workBufferSize := getGridCommWorkBufferSize ctx dom
    (if privatizeBuffer then fls else [])
    (if w.allreduce && withinALoop then 2 else 1)
  let outVarBuf : Alloc := ⟨workBufferSize, w.outVar.dtype, false⟩
  let outAvgBuf : Alloc := ⟨workBufferSize, w.outAvg.dtype, false⟩
  let outNBuf : Alloc := ⟨workBufferSize, w.outN.dtype, false⟩
  let syncBuf : Alloc :=
    ⟨getGridSyncBufferSize ctx dom (if privatizeBuffer then fls else []),
      .Int, true⟩
  let entranceInd := if privatizeBuffer then getEntranceLinIndGridReduce fls else 0
  let nEntrances := if privatizeBuffer then getEntranceCountGridReduce fls else 1
  let threadPred := ctx.threadPred outTv.name
  let blockReduceSeparated := hasBlockReduction dom && !w.allreduce
  let gwPred : Option KPred :=
    match w.pred with
    | some p => if blockReduceSeparated then some (.lit true) else some p
    | none => none
  let gw : LExpr := .gridWelford w outVarBuf outAvgBuf outNBuf syncBuf
    entranceInd nEntrances threadPred gwPred w.wpred
  let front : LExprList := if blockReduceSeparated then LL [.welfordOp w] else .nil
  let ms := front ++ LL [.allocate outVarBuf, .allocate outAvgBuf,
    .allocate outNBuf, .allocate syncBuf, gw]
  if w.allreduce then
    if atTop then .ok (ms.insertBeforeLast .allocateFusedReduction, .nil)
    else .ok (ms, LL [.allocateFusedReduction])
  else .ok (ms, .nil)

/-- `IndexLowering::handle(const WelfordOp*)`: check the (extent-blind)
serial-plus-grid invariant before lowering the IO tensors, build the
indexed `WelfordOp` carrying the original predicates, and emit it
directly in the serial and block-only cases, else continue with
`handleGridWelford`. -/
def handleWelfordOp (ctx : Ctx) (fls : List ForLoop) (atTop : Bool)
    (outAvg outVar outN : TensorView) (initAvg initVar initN : KVal)
    (inAvg : KVal) (inVar : Option KVal) (inN : KVal)
    (allreduce : Bool) (pred wpred : Option KPred) :
    Except String (LExprList × LExprList) :=
  let dom := outAvg.domain
  let hasBlockReduce := hasBlockReduction dom
  let hasGridReduce := hasGridReduction dom
  if hasGridReduce && welfordSerialViolation dom then
    .error gridSerialWelfordMsg
  else
    let inVarI := inVar.map fun v => lowerSrcIndex v (.tv outAvg)
    let inAvgI := lowerSrcIndex inAvg (.tv outAvg)
    let inNI := if inN.isScalar then inN else lowerSrcIndex inN (.tv outN)
    let w : LWelford :=
      { outAvg := lowerDstIndex (.tv outAvg)
        outVar := lowerDstIndex (.tv outVar)
        outN := lowerDstIndex (.tv outN)
        initAvg := initAvg, initVar := initVar, initN := initN
        inAvg := inAvgI, inVar := inVarI, inN := inNI
        allreduce := allreduce, pred := pred, wpred := wpred }
    if !hasBlockReduce && !hasGridReduce then .ok (LL [.welfordOp w], .nil)
    else if !hasGridReduce then .ok (LL [.welfordOp w], .nil)
    else handleGridWelford ctx fls atTop outAvg w

/-- `IndexLowering::handle(const BroadcastOp*)`: emit a plain indexed
broadcast unless the broadcast spans a BID dimension, in which case
allocate the work and sync buffers (sized with no enclosing loops — the
default arguments of the size helpers) and wrap the broadcast in a
`GridBroadcast`. -/
def handleBroadcastOp (ctx : Ctx) (out : TensorView) (inp : KVal)
    (flags : List Bool) (pred : Option KPred) :
    Except String (LExprList × LExprList) :=
  let outI := lowerDstIndex (.tv out)
  let inI := lowerSrcIndex inp (.tv out)
  if !gridBroadcastNeeded ctx out.name then
    .ok (LL [.broadcastOp outI inI flags pred], .nil)
  else
    let dom := out.domain
    let broadcastBuffer : Alloc :=
      ⟨getGridCommWorkBufferSize ctx dom [] 1, outI.dtype, false⟩
    let syncBuffer : Alloc := ⟨getGridSyncBufferSize ctx dom [], .Int, true⟩
    .ok (LL [.allocate broadcastBuffer, .allocate syncBuffer,
      .gridBroadcast outI inI flags broadcastBuffer syncBuffer pred], .nil)

mutual
/-- The per-expression dispatch of `IndexLowering`
(`OptOutConstDispatch::handle`).  The result pairs the expressions
emitted into the current scope with the expressions hoisted to the top
level by `insertAtTopLevel`; `fls` is the `for_loops_` stack and
`atTop` records whether the active scope is the top level. -/
def lowerOne (ctx : Ctx) (fls : List ForLoop) (atTop : Bool) :
    SExpr → Except String (LExprList × LExprList)
  | .unary opT out inp =>
    .ok (LL [.unary opT (lowerDstIndex out) (lowerSrcIndex inp out)], .nil)
  | .binary opT out lhs rhs =>
    .ok (LL [.binary opT (lowerDstIndex out) (lowerSrcIndex lhs out)
      (lowerSrcIndex rhs out)], .nil)
  | .ternary opT out in1 in2 in3 =>
    .ok (LL [.ternary opT (lowerDstIndex out) (lowerSrcIndex in1 out)
      (lowerSrcIndex in2 out) (lowerSrcIndex in3 out)], .nil)
  | .reduction opT init out inp allreduce pred wpred =>
    handleReductionOp ctx fls atTop opT init out inp allreduce pred wpred
  | .groupedReduction opTs inits outs ins allreduce pred wpred =>
    handleGroupedReductionOp ctx fls atTop opTs inits outs ins allreduce pred wpred
  | .welford outAvg outVar outN initAvg initVar initN inAvg inVar inN allreduce pred wpred =>
    handleWelfordOp ctx fls atTop outAvg outVar outN initAvg initVar initN
      inAvg inVar inN allreduce pred wpred
  | .broadcast out inp flags pred => handleBroadcastOp ctx out inp flags pred
  | .mma out a b init options =>
    .ok (LL [.mmaOp (lowerDstIndex out) (lowerSrcIndex a out)
      (lowerSrcIndex b out) init options], .nil)
  | .allocate a => .ok (LL [.allocate a], .nil)
  | .blockSync => .ok (LL [.blockSync], .nil)
  | .gridSync => .ok (LL [.gridSync], .nil)
  | .forLoop fl body => do
    let r ← lowerList ctx (fls ++ [fl]) false body
    .ok (LL [.forLoop fl r.1], r.2)
  | .ifThenElse pred thenBody elseBody => do
    let rt ← lowerList ctx fls false thenBody
    let re ← lowerList ctx fls false elseBody
    .ok (LL [.ifThenElse pred rt.1 re.1], rt.2 ++ re.2)
/-- Lower a scope body in order, concatenating the scope-local emissions
and the hoisted top-level emissions. -/
def lowerList (ctx : Ctx) (fls : List ForLoop) (atTop : Bool) :
    SExprList → Except String (LExprList × LExprList)
  | .nil => .ok (.nil, .nil)
  | .cons e rest => do
    let r1 ← lowerOne ctx fls atTop e
    let r2 ← lowerList ctx fls atTop rest
    .ok (r1.1 ++ r2.1, r1.2 ++ r2.2)
end

/-- `IndexLowering::generate`: lower the top-level expression list in
order.  Hoisted expressions produced while processing a top-level
expression are inserted before it (at insertion time it is the last
element of `lowered_exprs_`); a handler running directly at the top
level performs its own `insertAtTopLevel` placement and hoists
nothing. -/
def generate (ctx : Ctx) : SExprList → Except String LExprList
  | .nil => .ok .nil
  | .cons e rest => do
    let r ← lowerOne ctx [] true e
    let rest2 ← generate ctx rest
    .ok (r.2 ++ r.1 ++ rest2)

/-- Whether a lowering step succeeded. -/
def lowerOk : Except String (LExprList × LExprList) → Bool
  | .ok _ => true
  | .error _ => false

/-- Count the top-level `Allocate` nodes of a lowered scope body
(no descent into nested scopes). -/
def countTopAllocs : LExprList → Nat
  | .nil => 0
  | .cons (.allocate _) r => 1 + countTopAllocs r
  | .cons _ r => countTopAllocs r

/-- Count the top-level `GroupedGridReduction` nodes of a lowered scope
body. -/
def countTopGroupedGridRed : LExprList → Nat
  | .nil => 0
  | .cons (.groupedGridReduction ..) r => 1 + countTopGroupedGridRed r
  | .cons _ r => countTopGroupedGridRed r

/-- Whether a lowered scope body contains a top-level `GridReduction`
node. -/
def containsTopGridRed : LExprList → Bool
  | .nil => false
  | .cons (.gridReduction ..) _ => true
  | .cons _ r => containsTopGridRed r

mutual
/-- The class of fusions claim-relevant to pure re-indexing: no
reduction/grouped-reduction/welford node, and every broadcast's output
has an empty BID parallel-broadcast bitmap (no grid broadcast). -/
def SExpr.noComm (ctx : Ctx) : SExpr → Bool
  | .unary .. => true
  | .binary .. => true
  | .ternary .. => true
  | .reduction .. => false
  | .groupedReduction .. => false
  | .welford .. => false
  | .broadcast out _ _ _ => !gridBroadcastNeeded ctx out.name
  | .mma .. => true
  | .allocate _ => true
  | .blockSync => true
  | .gridSync => true
  | .forLoop _ body => body.noComm ctx
  | .ifThenElse _ thenBody elseBody => thenBody.noComm ctx && elseBody.noComm ctx
/-- `noComm` over a scope body. -/
def SExprList.noComm (ctx : Ctx) : SExprList → Bool
  | .nil => true
  | .cons e rest => e.noComm ctx && rest.noComm ctx
end

mutual
/-- Structural correspondence between a source expression and a lowered
expression: same node kind (with equal operator tags, pass-through
allocations preserved verbatim, and equal scope headers) and
recursively mirroring scope bodies. -/
def mirrors : SExpr → LExpr → Bool
  | .unary opT _ _, .unary opT2 _ _ => opT == opT2
  | .binary opT _ _ _, .binary opT2 _ _ _ => opT == opT2
  | .ternary opT _ _ _ _, .ternary opT2 _ _ _ _ => opT == opT2
  | .broadcast _ _ flags _, .broadcastOp _ _ flags2 _ => decide (flags = flags2)
  | .mma _ _ _ _ options, .mmaOp _ _ _ _ options2 => options == options2
  | .allocate a, .allocate a2 => decide (a = a2)
  | .blockSync, .blockSync => true
  | .gridSync, .gridSync => true
  | .forLoop fl body, .forLoop fl2 body2 =>
    decide (fl = fl2) && mirrorsList body body2
  | .ifThenElse p thenB elseB, .ifThenElse p2 thenB2 elseB2 =>
    decide (p = p2) && mirrorsList thenB thenB2 && mirrorsList elseB elseB2
  | _, _ => false
/-- `mirrors` lifted to scope bodies: equal length and pointwise
mirroring, in order. -/
def mirrorsList : SExprList → LExprList → Bool
  | .nil, .nil => true
  | .cons e rest, .cons l rest2 => mirrors e l && mirrorsList rest rest2
  | _, _ => false
end

mutual
/-- Total node count of a source expression, scopes included. -/
def SExpr.nodeCount : SExpr → Nat
  | .forLoop _ body => 1 + body.nodeCount
  | .ifThenElse _ thenBody elseBody => 1 + thenBody.nodeCount + elseBody.nodeCount
  | _ => 1
/-- Total node count of a source scope body. -/
def SExprList.nodeCount : SExprList → Nat
  | .nil => 0
  | .cons e rest => e.nodeCount + rest.nodeCount
end

mutual
/-- Total node count of a lowered expression, scopes included. -/
def LExpr.nodeCount : LExpr → Nat
  | .forLoop _ body => 1 + body.nodeCount
  | .ifThenElse _ thenBody elseBody => 1 + thenBody.nodeCount + elseBody.nodeCount
  | _ => 1
/-- Total node count of a lowered scope body. -/
def LExprList.nodeCount : LExprList → Nat
  | .nil => 0
  | .cons e rest => e.nodeCount + rest.nodeCount
end

mutual
/-- Number of `Allocate` nodes in a source expression, scopes
included. -/
def SExpr.allocCount : SExpr → Nat
  | .allocate _ => 1
  | .forLoop _ body => body.allocCount
  | .ifThenElse _ thenBody elseBody => thenBody.allocCount + elseBody.allocCount
  | _ => 0
/-- Number of `Allocate` nodes in a source scope body. -/
def SExprList.allocCount : SExprList → Nat
  | .nil => 0
  | .cons e rest => e.allocCount + rest.allocCount
end

mutual
/-- Number of `Allocate` nodes in a lowered expression, scopes
included. -/
def LExpr.allocCount : LExpr → Nat
  | .allocate _ => 1
  | .forLoop _ body => body.allocCount
  | .ifThenElse _ thenBody elseBody => thenBody.allocCount + elseBody.allocCount
  | _ => 0
/-- Number of `Allocate` nodes in a lowered scope body. -/
def LExprList.allocCount : LExprList → Nat
  | .nil => 0
  | .cons e rest => e.allocCount + rest.allocCount
end

/-! ## Grouping validation (`groupReductions`) -/

/-- A recorded scheduling transform of a tensor domain. -/
inductive TransformStep where
  | split (axis factor : Nat)
  | merge (axis : Nat)
deriving DecidableEq, Repr

/-- A tensor as the grouping validation sees it: its (root) shape and
its transform history. -/
structure SchedTensor where
  shape : List Nat
  history : List TransformStep
deriving DecidableEq, Repr

/-- Modelled from the spec: `groupReductions` (defined outside src/;
only its tests are under src/) validates that all grouped reductions
have identical transform history and shape before any grouping or
lowering happens, raising on a mismatch, and only on success produces
the `GroupedReductionOp` that lowering could later consume. -/
def groupReductions (ts : List SchedTensor) : Except String Unit :=
  match ts with
  | [] => .error "groupReductions: nothing to group"
  | t :: rest =>
    if rest.all fun u => decide (u.shape = t.shape) && decide (u.history = t.history) then
      .ok ()
    else .error "groupReductions: mismatched shape or transform history"

/-- Whether grouping succeeded. -/
def groupOk : Except String Unit → Bool
  | .ok _ => true
  | .error _ => false

/-! ## Pointwise scheduler heuristic (`scheduler/pointwise.cpp`) -/

/-- `ceilDiv` as used by the scheduler. -/
def ceilDiv (a b : Nat) : Nat := (a + b - 1) / b

/-- `kThreadX` (pointwise.cpp). -/
def kThreadX : Nat := 128

/-- `std::numeric_limits<int64_t>::max()`, the initial
`min_total_transfer`. -/
def intMax : Nat := 2 ^ 63 - 1

/-- `*std::max_element(...)` over a list of non-negative counts (the
scheduler only dereferences it on non-empty ranges; 0 on the empty
range). -/
def maxList (l : List Nat) : Nat := l.foldl max 0

/-- The inputs of the 2-D break-point search: the per-dimension element
counts of the reference tensor's root domain, the per-dimension
input/output mapping byte counts, the maximum unroll factor and the
device multiprocessor count. -/
structure BPEnv where
  elemCounts : List Nat
  mappingCount : List Nat
  maxUnrollFactor : Nat
  deviceMultiprocessorCount : Nat
deriving DecidableEq, Repr

/-- `n_elems`: product of the reference root extents. -/
def BPEnv.nElems (env : BPEnv) : Nat := env.elemCounts.foldl (· * ·) 1

/-- `transfer_size_1d`: cost of the pure 1-D schedule — every element of
every dimension weighted by the global maximum mapping count. -/
def transfer1d (env : BPEnv) : Nat :=
  env.elemCounts.foldl (fun acc c => acc * c * maxList env.mappingCount) 1

/-- `cur_right_elem_count` at candidate break point `i`. -/
def curRight (env : BPEnv) (i : Nat) : Nat :=
  (env.elemCounts.drop i).foldl (· * ·) 1

/-- `cur_left_elem_count` at candidate break point `i`. -/
def curLeft (env : BPEnv) (i : Nat) : Nat := env.nElems / curRight env i

/-- `cur_transfer_size` at candidate break point `i`: the left
dimensions weighted by the left maximum mapping count, the right
dimensions by the right maximum. -/
def curTransfer (env : BPEnv) (i : Nat) : Nat :=
  let leftMaxDims := maxList (env.mappingCount.take i)
  let rightMaxDims := maxList (env.mappingCount.drop i)
  let leftPart := (env.elemCounts.take i).foldl (fun acc c => acc * c * leftMaxDims) 1
  (env.elemCounts.drop i).foldl (fun acc c => acc * c * rightMaxDims) leftPart

/-- The scan state of the break-point search loop. -/
structure BPState where
  breakPoint : Nat
  minTotalTransfer : Nat
  rightElemCount : Nat
  bdimx : Nat
  bdimy : Nat
  gdimx : Nat
  gdimy : Nat
deriving DecidableEq, Repr

/-- The state before the first candidate (pointwise.cpp lines 188-239). -/
def bpInit : BPState :=
  { breakPoint := 0, minTotalTransfer := intMax, rightElemCount := 0,
    bdimx := kThreadX, bdimy := 1, gdimx := 1, gdimy := 1 }

/-- One iteration of the candidate loop (pointwise.cpp lines 241-316):
skip degenerate splits, skip candidates that do not beat both the
best-so-far cost and 90% of the 1-D cost, skip candidates whose right
element count is below the unroll factor, else recompute the block/grid
dimensions and adopt the candidate. -/
def bpStep (env : BPEnv) (s : BPState) (i : Nat) : BPState :=
  let cr := curRight env i
  if cr ≤ 1 then s
  else
    let cl := env.nElems / cr
    if cl ≤ 1 then s
    else
      let ct := curTransfer env i
      if ct ≥ s.minTotalTransfer || ct * 10 ≥ transfer1d env * 9 then s
      else if cr < env.maxUnrollFactor then s
      else
        let bdimx := min (ceilDiv cr env.maxUnrollFactor) kThreadX
        let bdimy := if cl > env.deviceMultiprocessorCount then kThreadX / bdimx else 1
        let remainderLeft := ceilDiv cl bdimy
        let remainderRight := ceilDiv cr (bdimy * bdimx * env.maxUnrollFactor)
        { breakPoint := i, minTotalTransfer := ct, rightElemCount := cr,
          bdimx := bdimx, bdimy := bdimy, gdimx := remainderLeft,
          gdimy := if remainderRight > 1 && bdimy ≤ 1 then remainderRight else 1 }

/-- The full ascending scan over all candidate break points. -/
def bpSearch (env : BPEnv) : BPState :=
  (List.range env.elemCounts.length).foldl (bpStep env) bpInit

/-- The pointwise parameters emitted after the search (pointwise.cpp
lines 320-332): `split_block` is `bdimy > 1` and `split_grid_y_dim` is
set only when `gdimy` exceeds 65535. -/
structure PointwiseParams where
  breakPoint : Nat
  splitBlock : Bool
  splitGridY : Bool
deriving DecidableEq, Repr

/-- Emit the parameters from the final scan state. -/
def emitParams (env : BPEnv) : PointwiseParams :=
  let s := bpSearch env
  { breakPoint := s.breakPoint,
    splitBlock := decide (1 < s.bdimy),
    splitGridY := decide (65535 < s.gdimy) }

/-! ## Concrete instances used by witnesses and counterexamples -/

/-- Build a scope body from a plain list of source expressions. -/
def SL : List SExpr → SExprList
  | [] => .nil
  | x :: r => .cons x (SL r)

/-- The predicate of a leading block-level `WelfordOp`, when present. -/
def headWelfordPred : LExprList → Option (Option KPred)
  | .cons (.welfordOp w) _ => some w.pred
  | _ => none

/-- The predicate of the first `GridWelford` node of a scope body, when
present. -/
def findGridWelfordPred : LExprList → Option (Option KPred)
  | .nil => none
  | .cons (.gridWelford _ _ _ _ _ _ _ _ p _) _ => some p
  | .cons _ r => findGridWelfordPred r

/-- A context whose parallel-dimension map binds BIDx to 2 (a 2-block
grid with no thread dimension beyond one). -/
def ctxB2 : Ctx :=
  ⟨fun p => match p with | .BIDx => some 2 | _ => none, fun _ => [], fun _ => []⟩

/-- A grid-reduction output whose domain has a BIDx reduction axis and a
serial reduction axis of extent one (the rfactor remainder). -/
def tvSerialOne : TensorView :=
  ⟨0, [⟨2, .BIDx, true, false⟩, ⟨1, .Serial, true, false⟩], .Float⟩

/-- A plain 1-D input tensor feeding the concrete reductions. -/
def tvPlainIn : TensorView := ⟨1, [⟨2, .BIDx, false, false⟩], .Float⟩

/-- A grid-reduction output with a serial reduction axis of extent two
(a genuine un-rfactored serial reduction). -/
def tvSerialTwo : TensorView :=
  ⟨2, [⟨4, .BIDx, true, false⟩, ⟨2, .Serial, true, false⟩], .Float⟩

/-- A context binding BIDx to 4. -/
def ctxB4 : Ctx :=
  ⟨fun p => match p with | .BIDx => some 4 | _ => none, fun _ => [], fun _ => []⟩

/-- The schedule of testable property 2: `grid(ceil(N/128)) x
block(128)` with BIDx and TIDx both mapped to reduction axes. -/
def c2Ctx (N : Nat) : Ctx :=
  ⟨fun p => match p with
    | .BIDx => some (ceilDiv N 128)
    | .TIDx => some 128
    | _ => none,
    fun _ => [], fun _ => []⟩

/-- The reduction output domain of that schedule. -/
def c2Dom (N : Nat) : List IterDomain :=
  [⟨ceilDiv N 128, .BIDx, true, false⟩, ⟨128, .TIDx, true, false⟩]

/-- The enclosing loop nest of that schedule: the two thread-mapped
loops, no non-trivial serial loop. -/
def c2Loops (N : Nat) : List ForLoop :=
  [⟨⟨ceilDiv N 128, .BIDx, true, false⟩, 0, false⟩,
   ⟨⟨128, .TIDx, true, false⟩, 0, false⟩]

/-- The grid size of that schedule. -/
def c2GridSize (N : Nat) : Nat := ceilDiv N 128

/-- The work-buffer element count that lowering computes for that
schedule (a non-allreduce grid reduction privatizes by the enclosing
loops). -/
def c2WorkSize (N : Nat) : Nat :=
  getGridCommWorkBufferSize (c2Ctx N) (c2Dom N) (c2Loops N) 1

/-- The sync-buffer element count that lowering computes for that
schedule. -/
def c2SyncSize (N : Nat) : Nat :=
  getGridSyncBufferSize (c2Ctx N) (c2Dom N) (c2Loops N)

/-- A two-axis grid-plus-block reduction domain (BIDx over 8 blocks,
TIDx over 128 threads, both reduction axes). -/
def domGB : List IterDomain :=
  [⟨8, .BIDx, true, false⟩, ⟨128, .TIDx, true, false⟩]

/-- A context binding BIDx to 8 and TIDx to 128. -/
def ctxGB : Ctx :=
  ⟨fun p => match p with
    | .BIDx => some 8
    | .TIDx => some 128
    | _ => none,
    fun _ => [], fun _ => []⟩

/-- A non-trivial serial enclosing loop (extent 4, loop index 2). -/
def serialLoop4 : ForLoop := ⟨⟨4, .Serial, false, false⟩, 2, false⟩

/-- First grouped output for the concrete grouped reduction. -/
def tvGroupA : TensorView := ⟨30, domGB, .Float⟩

/-- Second grouped output for the concrete grouped reduction. -/
def tvGroupB : TensorView := ⟨31, domGB, .Double⟩

/-- The concrete welford op of the C5 scenario: block and grid
reduction, not an allreduce, with a symbolic predicate and write
predicate. -/
def wopC5 : SExpr :=
  .welford ⟨10, domGB, .Float⟩ ⟨11, domGB, .Float⟩ ⟨12, domGB, .Int⟩
    (.scalar 0 .Float) (.scalar 0 .Float) (.scalar 0 .Int)
    (.tv ⟨13, [⟨8, .BIDx, false, false⟩, ⟨128, .TIDx, false, false⟩], .Float⟩)
    none (.scalar 1 .Int) false (some (.sym 0)) (some (.sym 1))

/-- The lowering result of the C5 scenario. -/
def c5Lowered : Except String (LExprList × LExprList) :=
  lowerOne ctxGB [] true wopC5

/-- The predicate carried by the block-level welford of the C5
scenario. -/
def c5BlockPred : Option (Option KPred) :=
  match c5Lowered with
  | .ok r => headWelfordPred r.1
  | .error _ => none

/-- The predicate carried by the `GridWelford` of the C5 scenario. -/
def c5GridPred : Option (Option KPred) :=
  match c5Lowered with
  | .ok r => findGridWelfordPred r.1
  | .error _ => none

/-- A context with no parallel bindings and empty predicate maps (pure
pointwise lowering). -/
def ctxPlain : Ctx := ⟨fun _ => none, fun _ => [], fun _ => []⟩

/-- A 1-D serial tensor for the pure re-indexing scenario. -/
def tvSerial16 : TensorView := ⟨20, [⟨16, .Serial, false, false⟩], .Float⟩

/-- A second 1-D serial tensor for the pure re-indexing scenario. -/
def tvSerial16b : TensorView := ⟨21, [⟨16, .Serial, false, false⟩], .Float⟩

/-- A loop header for the pure re-indexing scenario. -/
def loop16 : ForLoop := ⟨⟨16, .Serial, false, false⟩, 0, false⟩

/-- A scheduled fusion with no reductions and no parallel-spanning
broadcasts: a loop containing a unary op, a pass-through allocation, a
branch and a plain broadcast, followed by a block sync. -/
def progPointwise : SExprList :=
  SL [.forLoop loop16
        (SL [.unary 0 (.tv tvSerial16) (.tv tvSerial16b),
             .allocate ⟨4, .Float, false⟩,
             .ifThenElse (some (.sym 3))
               (SL [.binary 1 (.tv tvSerial16) (.tv tvSerial16b) (.scalar 5 .Float)])
               (SL []),
             .broadcast tvSerial16 (.tv tvSerial16b) [true] none]),
      .blockSync]

/-- The break-point-search environment of the C7 witness: reference
root `[4, 128]`, mapping counts `[1, 4]`, unroll factor 1, one
multiprocessor. -/
def envBP : BPEnv := ⟨[4, 128], [1, 4], 1, 1⟩

/-- Differently shaped tensors for the grouping-validation witness. -/
def schedT23 : SchedTensor := ⟨[2, 3], []⟩

/-- The second, differently shaped tensor. -/
def schedT24 : SchedTensor := ⟨[2, 4], []⟩

/-- Equal-shape tensors whose split histories differ (split by 128
versus split by 64), as in the `FusionGroupedReduction5` test. -/
def schedSplit128 : SchedTensor := ⟨[99, 999], [.split 1 128]⟩

/-- The second tensor, split by 64. -/
def schedSplit64 : SchedTensor := ⟨[99, 999], [.split 1 64]⟩

/-! ## Emission contracts (the shapes the grid-lowering theorems assert) -/

/-- What grid lowering of a `GroupedReductionOp` emits: one work-buffer
`Allocate` per grouped output, sized by the grid communication
work-buffer formula over the enclosing loops (unconditionally — no
privatization gate) with that output's dtype, then one shared
sync-buffer `Allocate`, then exactly one `GroupedGridReduction` node
carrying no entrance index/count; an allreduce adds one hoisted
`AllocateFusedReduction`. -/
def GroupedGridEmission (ctx : Ctx) (fls : List ForLoop) (atTop : Bool)
    (opTs : List Nat) (inits : List KVal) (outTv : TensorView)
    (restOuts : List TensorView) (ins : List KVal) (allreduce : Bool)
    (pred wpred : Option KPred) : Prop :=
  ∃ ms hs,
    lowerOne ctx fls atTop
        (.groupedReduction opTs inits (outTv :: restOuts) ins allreduce pred wpred)
      = .ok (ms, hs) ∧
    ms = (let dom := outTv.domain
          let workBufs : List Alloc := (outTv :: restOuts).map fun tvv =>
            ⟨getGridCommWorkBufferSize ctx dom fls
                (if allreduce && isWithinALoop dom then 2 else 1),
              tvv.dtype, false⟩
          let syncBuf : Alloc := ⟨getGridSyncBufferSize ctx dom fls, .Int, true⟩
          let node : LExpr := .groupedGridReduction opTs inits
            ((outTv :: restOuts).map fun tvv => lowerDstIndex (.tv tvv))
            ((ins.zip (outTv :: restOuts)).map fun p => lowerSrcIndex p.1 (.tv p.2))
            workBufs syncBuf allreduce (ctx.threadPred outTv.name) pred wpred
          let base := allocsLL workBufs ++ LL [.allocate syncBuf, node]
          if allreduce && atTop then base.insertBeforeLast .allocateFusedReduction
          else base) ∧
    hs = (if allreduce && !atTop then LL [.allocateFusedReduction] else .nil) ∧
    countTopGroupedGridRed ms = 1 ∧
    countTopAllocs ms = restOuts.length + 2

/-- What grid lowering of an allreduce `ReductionOp` emits: buffer sizes
computed with an empty loop list (privatization suppressed), entrance
identity values 0 and 1 on the `GridReduction` node, and one hoisted
`AllocateFusedReduction`. -/
def SingleGridAllreduceEmission (ctx : Ctx) (fls : List ForLoop) (atTop : Bool)
    (opT : Nat) (init : KVal) (outTv : TensorView) (inp : KVal)
    (pred wpred : Option KPred) : Prop :=
  ∃ ms hs,
    lowerOne ctx fls atTop (.reduction opT init outTv inp true pred wpred)
      = .ok (ms, hs) ∧
    ms = (let dom := outTv.domain
          let workBuf : Alloc :=
            ⟨getGridCommWorkBufferSize ctx dom []
                (if isWithinALoop dom then 2 else 1),
              outTv.dtype, false⟩
          let syncBuf : Alloc := ⟨getGridSyncBufferSize ctx dom [], .Int, true⟩
          let node : LExpr := .gridReduction opT init (lowerDstIndex (.tv outTv))
            (lowerSrcIndex inp (.tv outTv)) workBuf syncBuf 0 1 true
            (ctx.threadPred outTv.name) pred wpred
          if atTop then
            LL [.allocate workBuf, .allocate syncBuf, .allocateFusedReduction, node]
          else LL [.allocate workBuf, .allocate syncBuf, node]) ∧
    hs = (if atTop then .nil else LL [.allocateFusedReduction])

/-- What grid lowering of a predicated, non-allreduce welford with both
a block and a grid reduction emits: the block-level indexed welford
first — keeping the original predicate — then the three work buffers,
the sync buffer, and the `GridWelford` whose predicate is replaced by
the always-true literal while the original write predicate stays on
it. -/
def WelfordSeparatedEmission (ctx : Ctx) (fls : List ForLoop) (atTop : Bool)
    (outAvg outVar outN : TensorView) (initAvg initVar initN : KVal)
    (inAvg : KVal) (inVar : Option KVal) (inN : KVal) (p : KPred)
    (wpred : Option KPred) : Prop :=
  let dom := outAvg.domain
  let w : LWelford :=
    { outAvg := lowerDstIndex (.tv outAvg)
      outVar := lowerDstIndex (.tv outVar)
      outN := lowerDstIndex (.tv outN)
      initAvg := initAvg, initVar := initVar, initN := initN
      inAvg := lowerSrcIndex inAvg (.tv outAvg)
      inVar := inVar.map fun v => lowerSrcIndex v (.tv outAvg)
      inN := if inN.isScalar then inN else lowerSrcIndex inN (.tv outN)
      allreduce := false, pred := some p, wpred := wpred }
  let wbs := getGridCommWorkBufferSize ctx dom fls 1
  let varBuf : Alloc := ⟨wbs, outVar.dtype, false⟩
  let avgBuf : Alloc := ⟨wbs, outAvg.dtype, false⟩
  let nBuf : Alloc := ⟨wbs, outN.dtype, false⟩
  let syncBuf : Alloc := ⟨getGridSyncBufferSize ctx dom fls, .Int, true⟩
  let gw : LExpr := .gridWelford w varBuf avgBuf nBuf syncBuf
    (getEntranceLinIndGridReduce fls) (getEntranceCountGridReduce fls)
    (ctx.threadPred outAvg.name) (some (.lit true)) wpred
  lowerOne ctx fls atTop
      (.welford outAvg outVar outN initAvg initVar initN inAvg inVar inN
        false (some p) wpred)
    = .ok (.cons (.welfordOp w)
        (LL [.allocate varBuf, .allocate avgBuf, .allocate nBuf,
          .allocate syncBuf, gw]), .nil)

end NVF

namespace NVF

@[simp] theorem LExprList.nil_append (b : LExprList) : LExprList.nil ++ b = b := rfl

@[simp] theorem LExprList.cons_append (e : LExpr) (r b : LExprList) :
    LExprList.cons e r ++ b = .cons e (r ++ b) := rfl

/-- If some reduction axis has extent one while being serial, the
welford violation predicate fires a fortiori. -/
theorem welfordViolation_of_extent_one (dom : List IterDomain)
    (h : dom.any (fun id => !id.isThread && id.isReduction && id.extent == 1) = true) :
    welfordSerialViolation dom = true := by
  simp only [List.any_eq_true, Bool.and_eq_true] at h
  obtain ⟨id, hm, ⟨h1, h2⟩, _⟩ := h
  simp only [welfordSerialViolation, List.any_eq_true, Bool.and_eq_true]
  exact ⟨id, hm, h1, h2⟩

/-- C1 (amended): grid lowering of a `ReductionOp` or
`GroupedReductionOp` aborts with the rfactor-directing message exactly
when some reduction axis is neither thread- nor block-mapped and has
extent other than one, while `WelfordOp` grid lowering aborts for any
non-thread reduction axis; the abort produces no lowered expression. -/
theorem c1_amended :
    (∀ (ctx : Ctx) (fls : List ForLoop) (atTop : Bool) (opT : Nat) (init : KVal)
        (out : TensorView) (inp : KVal) (allreduce : Bool) (pred wpred : Option KPred),
      hasGridReduction out.domain = true →
      redSerialViolation out.domain = true →
      lowerOne ctx fls atTop (.reduction opT init out inp allreduce pred wpred)
        = .error gridSerialReductionMsg) ∧
    (∀ (ctx : Ctx) (fls : List ForLoop) (atTop : Bool) (opTs : List Nat)
        (inits : List KVal) (outTv : TensorView) (restOuts : List TensorView)
        (ins : List KVal) (allreduce : Bool) (pred wpred : Option KPred),
      hasGridReduction outTv.domain = true →
      redSerialViolation outTv.domain = true →
      lowerOne ctx fls atTop
          (.groupedReduction opTs inits (outTv :: restOuts) ins allreduce pred wpred)
        = .error gridSerialReductionMsg) ∧
    (∀ (ctx : Ctx) (fls : List ForLoop) (atTop : Bool)
        (outAvg outVar outN : TensorView) (initAvg initVar initN : KVal)
        (inAvg : KVal) (inVar : Option KVal) (inN : KVal)
        (allreduce : Bool) (pred wpred : Option KPred),
      hasGridReduction outAvg.domain = true →
      welfordSerialViolation outAvg.domain = true →
      lowerOne ctx fls atTop
          (.welford outAvg outVar outN initAvg initVar initN inAvg inVar inN
            allreduce pred wpred)
        = .error gridSerialWelfordMsg) := by
  refine ⟨?_, ?_, ?_⟩
  · intro ctx fls atTop opT init out inp allreduce pred wpred hg hv
    simp [lowerOne, handleReductionOp, handleGridReductionS, hg, hv]
  · intro ctx fls atTop opTs inits outTv restOuts ins allreduce pred wpred hg hv
    simp [lowerOne, handleGroupedReductionOp, hg, hv]
  · intro ctx fls atTop outAvg outVar outN initAvg initVar initN inAvg inVar inN
      allreduce pred wpred hg hv
    simp [lowerOne, handleWelfordOp, hg, hv]

end NVF

namespace NVF

/-- C1 (counterexample): a `ReductionOp` whose output domain has a grid
reduction and a non-thread-mapped (serial) reduction axis — of extent
one — lowers successfully and emits a `GridReduction` node, so the
claim that any serial reduction axis aborts lowering is false. -/
theorem c1_counterexample :
    hasGridReduction tvSerialOne.domain = true ∧
    tvSerialOne.domain.any (fun id => !id.isThread && id.isReduction) = true ∧
    lowerOk (lowerOne ctxB2 [] true
      (.reduction 0 (.scalar 0 .Float) tvSerialOne (.tv tvPlainIn) false none none)) = true ∧
    (match lowerOne ctxB2 [] true
        (.reduction 0 (.scalar 0 .Float) tvSerialOne (.tv tvPlainIn) false none none) with
      | .ok r => containsTopGridRed r.1
      | .error _ => false) = true := by
  refine ⟨by decide, by decide, by decide, by decide⟩

/-- C1 (amended, witness): the three abort paths evaluated at concrete
violating inputs. -/
theorem c1_amended_witness :
    (hasGridReduction tvSerialTwo.domain = true ∧
     redSerialViolation tvSerialTwo.domain = true ∧
     lowerOne ctxB4 [] true
        (.reduction 0 (.scalar 0 .Float) tvSerialTwo (.tv tvPlainIn) false none none)
       = .error gridSerialReductionMsg) ∧
    lowerOne ctxB4 [] true
        (.groupedReduction [0] [.scalar 0 .Float] [tvSerialTwo] [.tv tvPlainIn]
          false none none)
      = .error gridSerialReductionMsg ∧
    lowerOne ctxB2 [] true
        (.welford tvSerialOne tvSerialOne ⟨3, tvSerialOne.domain, .Int⟩
          (.scalar 0 .Float) (.scalar 0 .Float) (.scalar 0 .Int)
          (.tv tvPlainIn) none (.scalar 1 .Int) false none none)
      = .error gridSerialWelfordMsg :=
  ⟨⟨by decide, by decide,
    c1_amended.1 ctxB4 [] true 0 (.scalar 0 .Float) tvSerialTwo (.tv tvPlainIn)
      false none none (by decide) (by decide)⟩,
   c1_amended.2.1 ctxB4 [] true [0] [.scalar 0 .Float] tvSerialTwo []
     [.tv tvPlainIn] false none none (by decide) (by decide),
   c1_amended.2.2 ctxB2 [] true tvSerialOne tvSerialOne ⟨3, tvSerialOne.domain, .Int⟩
     (.scalar 0 .Float) (.scalar 0 .Float) (.scalar 0 .Int) (.tv tvPlainIn) none
     (.scalar 1 .Int) false none none (by decide) (by decide)⟩

/-- C9: for `ReductionOp` and `GroupedReductionOp` grid lowering a
non-thread reduction axis of extent one is exempt from the
serial-plus-grid abort (lowering succeeds whenever no non-thread
reduction axis has extent other than one), whereas `WelfordOp` grid
lowering aborts for any non-thread reduction axis, extent one
included. -/
theorem c9_theorem :
    (∀ (ctx : Ctx) (fls : List ForLoop) (atTop : Bool) (opT : Nat) (init : KVal)
        (out : TensorView) (inp : KVal) (allreduce : Bool) (pred wpred : Option KPred),
      hasGridReduction out.domain = true →
      out.domain.any (fun id => !id.isThread && id.isReduction && id.extent == 1) = true →
      redSerialViolation out.domain = false →
      lowerOk (lowerOne ctx fls atTop
        (.reduction opT init out inp allreduce pred wpred)) = true) ∧
    (∀ (ctx : Ctx) (fls : List ForLoop) (atTop : Bool) (opTs : List Nat)
        (inits : List KVal) (outTv : TensorView) (restOuts : List TensorView)
        (ins : List KVal) (allreduce : Bool) (pred wpred : Option KPred),
      hasGridReduction outTv.domain = true →
      outTv.domain.any (fun id => !id.isThread && id.isReduction && id.extent == 1) = true →
      redSerialViolation outTv.domain = false →
      lowerOk (lowerOne ctx fls atTop
        (.groupedReduction opTs inits (outTv :: restOuts) ins allreduce pred wpred)) = true) ∧
    (∀ (ctx : Ctx) (fls : List ForLoop) (atTop : Bool)
        (outAvg outVar outN : TensorView) (initAvg initVar initN : KVal)
        (inAvg : KVal) (inVar : Option KVal) (inN : KVal)
        (allreduce : Bool) (pred wpred : Option KPred),
      hasGridReduction outAvg.domain = true →
      outAvg.domain.any (fun id => !id.isThread && id.isReduction && id.extent == 1) = true →
      lowerOne ctx fls atTop
          (.welford outAvg outVar outN initAvg initVar initN inAvg inVar inN
            allreduce pred wpred)
        = .error gridSerialWelfordMsg) := by
  refine ⟨?_, ?_, ?_⟩
  · intro ctx fls atTop opT init out inp allreduce pred wpred hg _h1 hv
    cases allreduce <;> cases atTop <;>
      simp [lowerOne, handleReductionOp, handleGridReductionS, hg, hv, lowerOk]
  · intro ctx fls atTop opTs inits outTv restOuts ins allreduce pred wpred hg _h1 hv
    cases allreduce <;> cases atTop <;>
      simp [lowerOne, handleGroupedReductionOp, hg, hv, lowerOk]
  · intro ctx fls atTop outAvg outVar outN initAvg initVar initN inAvg inVar inN
      allreduce pred wpred hg h1
    have hv := welfordViolation_of_extent_one outAvg.domain h1
    simp [lowerOne, handleWelfordOp, hg, hv]

/-- C9 (witness): the exemption and the welford abort evaluated at a
concrete schedule with an extent-one serial reduction axis. -/
theorem c9_witness :
    (hasGridReduction tvSerialOne.domain = true ∧
     tvSerialOne.domain.any (fun id => !id.isThread && id.isReduction && id.extent == 1) = true ∧
     redSerialViolation tvSerialOne.domain = false ∧
     lowerOk (lowerOne ctxB2 [] false
       (.reduction 0 (.scalar 0 .Float) tvSerialOne (.tv tvPlainIn) false none none)) = true) ∧
    lowerOk (lowerOne ctxB2 [] false
      (.groupedReduction [0] [.scalar 0 .Float] [tvSerialOne] [.tv tvPlainIn]
        false none none)) = true ∧
    lowerOne ctxB2 [] false
        (.welford tvSerialOne tvSerialOne ⟨3, tvSerialOne.domain, .Int⟩
          (.scalar 0 .Float) (.scalar 0 .Float) (.scalar 0 .Int)
          (.tv tvPlainIn) none (.scalar 1 .Int) false none none)
      = .error gridSerialWelfordMsg :=
  ⟨⟨by decide, by decide, by decide,
    c9_theorem.1 ctxB2 [] false 0 (.scalar 0 .Float) tvSerialOne (.tv tvPlainIn)
      false none none (by decide) (by decide) (by decide)⟩,
   c9_theorem.2.1 ctxB2 [] false [0] [.scalar 0 .Float] tvSerialOne []
     [.tv tvPlainIn] false none none (by decide) (by decide) (by decide),
   c9_theorem.2.2 ctxB2 [] false tvSerialOne tvSerialOne ⟨3, tvSerialOne.domain, .Int⟩
     (.scalar 0 .Float) (.scalar 0 .Float) (.scalar 0 .Int) (.tv tvPlainIn) none
     (.scalar 1 .Int) false none none (by decide) (by decide)⟩

end NVF

namespace NVF

/-- Evaluating the work-buffer fold on the C2 schedule: the TIDx
dimension is consumed by the reduction, so only the BIDx dimension
contributes. -/
theorem c2WorkSize_eq (N : Nat) : c2WorkSize N = c2GridSize N := by
  by_cases h : ceilDiv N 128 = 1 <;>
    simp [c2WorkSize, c2GridSize, getGridCommWorkBufferSize, kParallelTypeThreads,
      c2Ctx, c2Dom, c2Loops, PTy.isThreadDim, IterDomain.isThread, PTy.isThread,
      PTy.isBlockDim, h]

/-- Evaluating the sync-buffer fold on the C2 schedule: BIDx is a
reduction dimension of the output domain, so it is skipped and the
sync-buffer count is one. -/
theorem c2SyncSize_eq (N : Nat) : c2SyncSize N = 1 := by
  by_cases h : ceilDiv N 128 = 1 <;>
    simp [c2SyncSize, getGridSyncBufferSize, kParallelTypeBIDs,
      c2Ctx, c2Dom, c2Loops, IterDomain.isThread, PTy.isThread, PTy.isBlockDim,
      PTy.isThreadDim, h]

/-- C2 (counterexample): at N = 256 the computed sync-buffer element
count is 1, not the grid size 2; and doubling N = 64 to 128 leaves the
work-buffer count at 1 instead of doubling it. -/
theorem c2_counterexample :
    decide (c2SyncSize 256 = c2GridSize 256) = false ∧
    c2SyncSize 256 = 1 ∧ c2GridSize 256 = 2 ∧
    decide (c2WorkSize 128 = 2 * c2WorkSize 64) = false := by
  refine ⟨by decide, by decide, by decide, by decide⟩

/-- C2 (amended): for the `grid(ceil(N/128)) x block(128)` reduction
schedule the work-buffer element count equals the grid size
ceil(N/128); the sync-buffer element count is 1 (BIDx is excluded as a
reduction dimension of the output — one flag per independent reduction
segment, not per block); and doubling N doubles the work-buffer count
when N is a multiple of 128 while leaving the sync-buffer count at 1. -/
theorem c2_amended (N : Nat) :
    c2WorkSize N = c2GridSize N ∧
    c2SyncSize N = 1 ∧
    (N % 128 = 0 → c2WorkSize (2 * N) = 2 * c2WorkSize N ∧ c2SyncSize (2 * N) = 1) := by
  refine ⟨c2WorkSize_eq N, c2SyncSize_eq N, ?_⟩
  intro h
  refine ⟨?_, c2SyncSize_eq (2 * N)⟩
  rw [c2WorkSize_eq, c2WorkSize_eq]
  simp only [c2GridSize, ceilDiv]
  omega

/-- C2 (amended, witness): the amended sizing facts at N = 256. -/
theorem c2_amended_witness :
    c2WorkSize 256 = c2GridSize 256 ∧ c2SyncSize 256 = 1 ∧
    (256 % 128 = 0 ∧ c2WorkSize 512 = 2 * c2WorkSize 256 ∧ c2SyncSize 512 = 1) :=
  ⟨(c2_amended 256).1, (c2_amended 256).2.1,
   by decide, ((c2_amended 256).2.2 (by decide)).1, ((c2_amended 256).2.2 (by decide)).2⟩

end NVF

namespace NVF

/-- C7: a candidate break point changes the scan state only when its
estimated transfer cost is strictly below the best so far and below 90%
of the 1-D cost (a saving of more than 10%, hence at least 10%) and its
right-hand element count is at least the maximum unroll factor; the
adopted state records that candidate and its cost.  The scan itself
(`bpSearch`) folds `bpStep` over the candidates in ascending order. -/
theorem c7_theorem (env : BPEnv) (s : BPState) (i : Nat)
    (h : bpStep env s i ≠ s) :
    (bpStep env s i).breakPoint = i ∧
    (bpStep env s i).minTotalTransfer = curTransfer env i ∧
    curTransfer env i < s.minTotalTransfer ∧
    curTransfer env i * 10 < transfer1d env * 9 ∧
    env.maxUnrollFactor ≤ curRight env i := by
  by_cases h1 : curRight env i ≤ 1
  · exact absurd (by simp [bpStep, h1]) h
  by_cases h2 : env.nElems / curRight env i ≤ 1
  · exact absurd (by simp [bpStep, h1, h2]) h
  by_cases h3 : curTransfer env i ≥ s.minTotalTransfer ∨
      curTransfer env i * 10 ≥ transfer1d env * 9
  · exact absurd (by simp [bpStep, h1, h2, h3]) h
  by_cases h4 : curRight env i < env.maxUnrollFactor
  · exact absurd (by simp [bpStep, h1, h2, h3, h4]) h
  have h3a := not_or.mp h3
  refine ⟨?_, ?_, lt_of_not_ge h3a.1, lt_of_not_ge h3a.2, le_of_not_lt h4⟩ <;>
    simp [bpStep, h1, h2, h3, h4]

/-- C7 (witness): on reference root `[4, 128]` with mapping counts
`[1, 4]`, candidate 1 is adopted from the initial state and satisfies
every adoption condition. -/
theorem c7_witness :
    bpStep envBP bpInit 1 ≠ bpInit ∧
    ((bpStep envBP bpInit 1).breakPoint = 1 ∧
     (bpStep envBP bpInit 1).minTotalTransfer = curTransfer envBP 1 ∧
     curTransfer envBP 1 < bpInit.minTotalTransfer ∧
     curTransfer envBP 1 * 10 < transfer1d envBP * 9 ∧
     envBP.maxUnrollFactor ≤ curRight envBP 1) :=
  ⟨by decide, c7_theorem envBP bpInit 1 (by decide)⟩

/-- One step of the candidate scan preserves the mutual exclusion of
block-y and grid-y parallelism: an adopted candidate sets `gdimy`
above one only when `bdimy` is at most one. -/
theorem bpStep_mutual_exclusion (env : BPEnv) (s : BPState) (i : Nat)
    (h : 1 < s.bdimy → s.gdimy ≤ 1) :
    1 < (bpStep env s i).bdimy → (bpStep env s i).gdimy ≤ 1 := by
  by_cases h1 : curRight env i ≤ 1
  · simpa [bpStep, h1] using h
  by_cases h2 : env.nElems / curRight env i ≤ 1
  · simpa [bpStep, h1, h2] using h
  by_cases h3 : curTransfer env i ≥ s.minTotalTransfer ∨
      curTransfer env i * 10 ≥ transfer1d env * 9
  · simpa [bpStep, h1, h2, h3] using h
  by_cases h4 : curRight env i < env.maxUnrollFactor
  · simpa [bpStep, h1, h2, h3, h4] using h
  simp [bpStep, h1, h2, h3, h4]
  intro hb
  split at hb
  · rename_i hc
    simp only [hc, if_true]
    split
    · rename_i hcond
      omega
    · omega
  · exact absurd hb (by omega)

/-- The scan fold preserves the mutual-exclusion invariant. -/
theorem bpFold_mutual_exclusion (env : BPEnv) :
    ∀ (l : List Nat) (s : BPState), (1 < s.bdimy → s.gdimy ≤ 1) →
    (1 < (l.foldl (bpStep env) s).bdimy → (l.foldl (bpStep env) s).gdimy ≤ 1) := by
  intro l
  induction l with
  | nil => intro s hs; simpa using hs
  | cons a t ih => intro s hs; exact ih _ (bpStep_mutual_exclusion env s a hs)

/-- C8: for every break-point-search environment the final state never
has `bdimy > 1` and `gdimy > 1` simultaneously, and the emitted
parameters never set `split_block` (`bdimy > 1`) together with the
split-grid-y flag (`gdimy > 65535`). -/
theorem c8_theorem (env : BPEnv) :
    (decide (1 < (bpSearch env).bdimy) && decide (1 < (bpSearch env).gdimy)) = false ∧
    ((emitParams env).splitBlock && (emitParams env).splitGridY) = false := by
  have hinv : 1 < (bpSearch env).bdimy → (bpSearch env).gdimy ≤ 1 := by
    refine bpFold_mutual_exclusion env _ bpInit ?_
    intro hb
    simp [bpInit] at hb
  constructor
  · by_cases hb : 1 < (bpSearch env).bdimy
    · have := hinv hb
      simp only [Bool.and_eq_false_iff, decide_eq_false_iff_not]
      right
      omega
    · simp only [Bool.and_eq_false_iff, decide_eq_false_iff_not]
      left
      exact hb
  · by_cases hb : 1 < (bpSearch env).bdimy
    · have := hinv hb
      simp only [emitParams, Bool.and_eq_false_iff, decide_eq_false_iff_not]
      right
      omega
    · simp only [emitParams, Bool.and_eq_false_iff, decide_eq_false_iff_not]
      left
      exact hb

end NVF

namespace NVF

/-- C4: grouping reductions over tensors that disagree in shape or in
transform history fails validation (raising before any lowering), so no
grouped-reduction node is ever produced from them. -/
theorem c4_theorem (ts : List SchedTensor) (t u : SchedTensor)
    (ht : t ∈ ts) (hu : u ∈ ts)
    (hne : t.shape ≠ u.shape ∨ t.history ≠ u.history) :
    groupOk (groupReductions ts) = false := by
  cases ts with
  | nil => rfl
  | cons hd rest =>
    by_cases hall : rest.all
        (fun v => decide (v.shape = hd.shape) && decide (v.history = hd.history)) = true
    · exfalso
      have key : ∀ x ∈ hd :: rest, x.shape = hd.shape ∧ x.history = hd.history := by
        intro x hx
        rcases List.mem_cons.mp hx with rfl | hx2
        · exact ⟨rfl, rfl⟩
        · have hp := List.all_eq_true.mp hall x hx2
          simp only [Bool.and_eq_true, decide_eq_true_eq] at hp
          exact hp
      obtain ⟨ts1, th1⟩ := key t ht
      obtain ⟨us1, uh1⟩ := key u hu
      rcases hne with hne | hne
      · exact hne (ts1.trans us1.symm)
      · exact hne (th1.trans uh1.symm)
    · simp only [groupReductions]
      rw [if_neg]
      · rfl
      · simpa using hall

/-- C4 (witness): grouping row sums over differently shaped tensors,
and over equally shaped tensors with different split histories, both
fail validation. -/
theorem c4_witness :
    (schedT23 ∈ [schedT23, schedT24] ∧ schedT24 ∈ [schedT23, schedT24] ∧
     schedT23.shape ≠ schedT24.shape ∧
     groupOk (groupReductions [schedT23, schedT24]) = false) ∧
    (schedSplit128.history ≠ schedSplit64.history ∧
     groupOk (groupReductions [schedSplit128, schedSplit64]) = false) :=
  ⟨⟨by decide, by decide, by decide,
    c4_theorem [schedT23, schedT24] schedT23 schedT24 (by decide) (by decide)
      (Or.inl (by decide))⟩,
   ⟨by decide,
    c4_theorem [schedSplit128, schedSplit64] schedSplit128 schedSplit64
      (by decide) (by decide) (Or.inr (by decide))⟩⟩

end NVF

namespace NVF

@[simp] theorem LExprList.append_eq (a b : LExprList) :
    LExprList.append a b = a ++ b := rfl

theorem countTopAllocs_append : ∀ a b : LExprList,
    countTopAllocs (a ++ b) = countTopAllocs a + countTopAllocs b
  | .nil, b => by simp [countTopAllocs]
  | .cons e r, b => by
    have ih := countTopAllocs_append r b
    cases e <;> simp [countTopAllocs, ih] <;> omega

theorem countTopGroupedGridRed_append : ∀ a b : LExprList,
    countTopGroupedGridRed (a ++ b)
      = countTopGroupedGridRed a + countTopGroupedGridRed b
  | .nil, b => by simp [countTopGroupedGridRed]
  | .cons e r, b => by
    have ih := countTopGroupedGridRed_append r b
    cases e <;> simp [countTopGroupedGridRed, ih] <;> omega

theorem countTopAllocs_allocsLL : ∀ l : List Alloc,
    countTopAllocs (allocsLL l) = l.length
  | [] => rfl
  | a :: r => by simp [allocsLL, countTopAllocs, countTopAllocs_allocsLL r]; omega

theorem countTopGroupedGridRed_allocsLL : ∀ l : List Alloc,
    countTopGroupedGridRed (allocsLL l) = 0
  | [] => rfl
  | a :: r => by
    simp [allocsLL, countTopGroupedGridRed, countTopGroupedGridRed_allocsLL r]

theorem insertBeforeLast_append_two :
    ∀ (ys : LExprList) (a b x : LExpr),
    LExprList.insertBeforeLast x (ys ++ .cons a (.cons b .nil))
      = ys ++ .cons a (.cons x (.cons b .nil))
  | .nil, a, b, x => rfl
  | .cons e .nil, a, b, x => rfl
  | .cons e (.cons f r), a, b, x => by
    have ih := insertBeforeLast_append_two (.cons f r) a b x
    simp only [LExprList.cons_append] at ih ⊢
    rw [LExprList.insertBeforeLast, ih]

end NVF

namespace NVF

@[simp] theorem dtype_tensorIndex (t : TensorView) :
    (KVal.tensorIndex t).dtype = t.dtype := rfl

@[simp] theorem lowerDst_tv (t : TensorView) :
    lowerDstIndex (.tv t) = .tensorIndex t := rfl

theorem map_alloc_dtype (sz : Nat) (l : List TensorView) :
    List.map (fun o => (⟨sz, KVal.dtype o, false⟩ : Alloc))
        (List.map (fun t => KVal.tensorIndex t) l)
      = List.map (fun t => (⟨sz, t.dtype, false⟩ : Alloc)) l := by
  induction l with
  | nil => rfl
  | cons a r ih => simp [ih]

theorem map_alloc_dtype_comp (sz : Nat) (l : List TensorView) :
    List.map ((fun o => (⟨sz, KVal.dtype o, false⟩ : Alloc)) ∘
        fun t => KVal.tensorIndex t) l
      = List.map (fun t => (⟨sz, t.dtype, false⟩ : Alloc)) l := by
  induction l with
  | nil => rfl
  | cons a r ih => simp [Function.comp, ih]

/-- The grouped grid emission contract holds for every validated
`GroupedReductionOp` (shared between the C3 and C10 theorems). -/
theorem grouped_grid_emission_holds (ctx : Ctx) (fls : List ForLoop) (atTop : Bool)
    (opTs : List Nat) (inits : List KVal) (outTv : TensorView)
    (restOuts : List TensorView) (ins : List KVal) (allreduce : Bool)
    (pred wpred : Option KPred)
    (hgrid : hasGridReduction outTv.domain = true)
    (hok : redSerialViolation outTv.domain = false) :
    GroupedGridEmission ctx fls atTop opTs inits outTv restOuts ins
      allreduce pred wpred := by
  unfold GroupedGridEmission
  cases allreduce <;> cases atTop <;>
    refine ⟨_, _, ?_, rfl, rfl, ?_, ?_⟩ <;>
    simp [lowerOne, handleGroupedReductionOp, hgrid, hok, map_alloc_dtype,
      map_alloc_dtype_comp, insertBeforeLast_append_two, countTopGroupedGridRed_append,
      countTopGroupedGridRed_allocsLL, countTopAllocs_append,
      countTopAllocs_allocsLL, countTopGroupedGridRed, countTopAllocs, LL] <;>
    try omega

end NVF

namespace NVF

/-- C3: grid lowering of a (validated) `GroupedReductionOp` emits one
work-buffer `Allocate` per grouped output — each sized by the grid
communication work-buffer formula and typed with that output's dtype —
exactly one shared sync-buffer `Allocate`, and exactly one
`GroupedGridReduction` node. -/
theorem c3_theorem (ctx : Ctx) (fls : List ForLoop) (atTop : Bool)
    (opTs : List Nat) (inits : List KVal) (outTv : TensorView)
    (restOuts : List TensorView) (ins : List KVal) (allreduce : Bool)
    (pred wpred : Option KPred)
    (hgrid : hasGridReduction outTv.domain = true)
    (hok : redSerialViolation outTv.domain = false) :
    GroupedGridEmission ctx fls atTop opTs inits outTv restOuts ins
      allreduce pred wpred :=
  grouped_grid_emission_holds ctx fls atTop opTs inits outTv restOuts ins
    allreduce pred wpred hgrid hok

/-- C3 (witness): the grouped grid emission contract at a concrete
two-output grouped reduction inside a non-trivial serial loop. -/
theorem c3_witness :
    hasGridReduction tvGroupA.domain = true ∧
    redSerialViolation tvGroupA.domain = false ∧
    GroupedGridEmission ctxGB [serialLoop4] false [0, 1]
      [.scalar 0 .Float, .scalar 0 .Double] tvGroupA [tvGroupB]
      [.tv ⟨32, domGB, .Float⟩, .tv ⟨33, domGB, .Double⟩] false none none :=
  ⟨by decide, by decide,
   c3_theorem ctxGB [serialLoop4] false [0, 1]
     [.scalar 0 .Float, .scalar 0 .Double] tvGroupA [tvGroupB]
     [.tv ⟨32, domGB, .Float⟩, .tv ⟨33, domGB, .Double⟩] false none none
     (by decide) (by decide)⟩

/-- C10: a `GroupedReductionOp` grid lowering sizes its work and sync
buffers over the enclosing non-trivial non-thread loops even when the
op is an allreduce, and its `GroupedGridReduction` node carries no
entrance index/count — whereas an allreduce `ReductionOp` grid lowering
suppresses per-loop buffer privatization (buffer sizes computed with an
empty loop list) and uses the entrance identity values 0 and 1. -/
theorem c10_theorem :
    (∀ (ctx : Ctx) (fls : List ForLoop) (atTop : Bool) (opTs : List Nat)
        (inits : List KVal) (outTv : TensorView) (restOuts : List TensorView)
        (ins : List KVal) (pred wpred : Option KPred),
      hasGridReduction outTv.domain = true →
      redSerialViolation outTv.domain = false →
      GroupedGridEmission ctx fls atTop opTs inits outTv restOuts ins
        true pred wpred) ∧
    (∀ (ctx : Ctx) (fls : List ForLoop) (atTop : Bool) (opT : Nat)
        (init : KVal) (outTv : TensorView) (inp : KVal)
        (pred wpred : Option KPred),
      hasGridReduction outTv.domain = true →
      redSerialViolation outTv.domain = false →
      SingleGridAllreduceEmission ctx fls atTop opT init outTv inp pred wpred) := by
  constructor
  · intro ctx fls atTop opTs inits outTv restOuts ins pred wpred hgrid hok
    exact grouped_grid_emission_holds ctx fls atTop opTs inits outTv restOuts ins
      true pred wpred hgrid hok
  · intro ctx fls atTop opT init outTv inp pred wpred hgrid hok
    unfold SingleGridAllreduceEmission
    cases atTop <;>
      refine ⟨_, _, ?_, rfl, rfl⟩ <;>
      simp [lowerOne, handleReductionOp, handleGridReductionS, hgrid, hok,
        LExprList.insertBeforeLast, LL]

end NVF

namespace NVF

/-- C10 (witness): both halves of the privatization contrast evaluated
at a concrete allreduce schedule inside a non-trivial serial loop. -/
theorem c10_witness :
    hasGridReduction tvGroupA.domain = true ∧
    redSerialViolation tvGroupA.domain = false ∧
    GroupedGridEmission ctxGB [serialLoop4] false [0, 1]
      [.scalar 0 .Float, .scalar 0 .Double] tvGroupA [tvGroupB]
      [.tv ⟨32, domGB, .Float⟩, .tv ⟨33, domGB, .Double⟩] true none none ∧
    SingleGridAllreduceEmission ctxGB [serialLoop4] false 0
      (.scalar 0 .Float) tvGroupA (.tv ⟨32, domGB, .Float⟩) none none :=
  ⟨by decide, by decide,
   c10_theorem.1 ctxGB [serialLoop4] false [0, 1]
     [.scalar 0 .Float, .scalar 0 .Double] tvGroupA [tvGroupB]
     [.tv ⟨32, domGB, .Float⟩, .tv ⟨33, domGB, .Double⟩] none none
     (by decide) (by decide),
   c10_theorem.2 ctxGB [serialLoop4] false 0 (.scalar 0 .Float) tvGroupA
     (.tv ⟨32, domGB, .Float⟩) none none (by decide) (by decide)⟩

/-- C5 (counterexample): for a predicated non-allreduce welford with
both block and grid reduction, the block-level welford keeps the
original symbolic predicate — it does not carry the always-true
predicate; the always-true predicate is placed on the `GridWelford`
instead. -/
theorem c5_counterexample :
    hasBlockReduction domGB = true ∧
    hasGridReduction domGB = true ∧
    decide (c5BlockPred = some (some (.lit true))) = false ∧
    c5BlockPred = some (some (.sym 0)) ∧
    c5GridPred = some (some (.lit true)) := by
  refine ⟨by decide, by decide, by decide, by decide, by decide⟩

/-- C5 (amended): for every predicated non-allreduce welford whose
output domain has both a block and a grid reduction (and no serial
reduction axis), the block-level indexed welford is emitted before the
`GridWelford` and keeps the original predicate, while the `GridWelford`
receives the always-true predicate and keeps the original write
predicate for the final write-back. -/
theorem c5_amended (ctx : Ctx) (fls : List ForLoop) (atTop : Bool)
    (outAvg outVar outN : TensorView) (initAvg initVar initN : KVal)
    (inAvg : KVal) (inVar : Option KVal) (inN : KVal) (p : KPred)
    (wpred : Option KPred)
    (hblock : hasBlockReduction outAvg.domain = true)
    (hgrid : hasGridReduction outAvg.domain = true)
    (hviol : welfordSerialViolation outAvg.domain = false) :
    WelfordSeparatedEmission ctx fls atTop outAvg outVar outN
      initAvg initVar initN inAvg inVar inN p wpred := by
  unfold WelfordSeparatedEmission
  simp [lowerOne, handleWelfordOp, handleGridWelford, hblock, hgrid, hviol, LL]

/-- C5 (amended, witness): the separated-emission contract at the
concrete C5 welford. -/
theorem c5_amended_witness :
    hasBlockReduction domGB = true ∧
    hasGridReduction domGB = true ∧
    welfordSerialViolation domGB = false ∧
    WelfordSeparatedEmission ctxGB [] true ⟨10, domGB, .Float⟩
      ⟨11, domGB, .Float⟩ ⟨12, domGB, .Int⟩ (.scalar 0 .Float)
      (.scalar 0 .Float) (.scalar 0 .Int)
      (.tv ⟨13, [⟨8, .BIDx, false, false⟩, ⟨128, .TIDx, false, false⟩], .Float⟩)
      none (.scalar 1 .Int) (.sym 0) (some (.sym 1)) :=
  ⟨by decide, by decide, by decide,
   c5_amended ctxGB [] true ⟨10, domGB, .Float⟩ ⟨11, domGB, .Float⟩
     ⟨12, domGB, .Int⟩ (.scalar 0 .Float) (.scalar 0 .Float) (.scalar 0 .Int)
     (.tv ⟨13, [⟨8, .BIDx, false, false⟩, ⟨128, .TIDx, false, false⟩], .Float⟩)
     none (.scalar 1 .Int) (.sym 0) (some (.sym 1))
     (by decide) (by decide) (by decide)⟩

end NVF

namespace NVF

mutual
/-- Pure re-indexing: each communication-free source expression lowers
to exactly one expression of the same kind, with no hoisted nodes,
mirrored scope nesting, and identical node and allocation counts. -/
theorem lowerOne_noComm (ctx : Ctx) :
    ∀ (fls : List ForLoop) (atTop : Bool) (e : SExpr),
    SExpr.noComm ctx e = true →
    ∃ l : LExpr, lowerOne ctx fls atTop e = .ok (.cons l .nil, .nil) ∧
      mirrors e l = true ∧ LExpr.nodeCount l = SExpr.nodeCount e ∧
      LExpr.allocCount l = SExpr.allocCount e
  | _fls, _atTop, .unary opT out inp, _ =>
    ⟨.unary opT (lowerDstIndex out) (lowerSrcIndex inp out), rfl,
      by simp [mirrors], rfl, rfl⟩
  | _fls, _atTop, .binary opT out lhs rhs, _ =>
    ⟨.binary opT (lowerDstIndex out) (lowerSrcIndex lhs out) (lowerSrcIndex rhs out),
      rfl, by simp [mirrors], rfl, rfl⟩
  | _fls, _atTop, .ternary opT out in1 in2 in3, _ =>
    ⟨.ternary opT (lowerDstIndex out) (lowerSrcIndex in1 out)
      (lowerSrcIndex in2 out) (lowerSrcIndex in3 out), rfl,
      by simp [mirrors], rfl, rfl⟩
  | _fls, _atTop, .reduction .., h => by simp [SExpr.noComm] at h
  | _fls, _atTop, .groupedReduction .., h => by simp [SExpr.noComm] at h
  | _fls, _atTop, .welford .., h => by simp [SExpr.noComm] at h
  | _fls, _atTop, .broadcast out inp flags pred, h => by
    have hb : gridBroadcastNeeded ctx out.name = false := by
      simpa [SExpr.noComm] using h
    refine ⟨.broadcastOp (.tensorIndex out) (lowerSrcIndex inp (.tv out)) flags pred,
      ?_, ?_, rfl, rfl⟩
    · simp [lowerOne, handleBroadcastOp, hb, LL]
    · simp [mirrors]
  | _fls, _atTop, .mma out a b init options, _ =>
    ⟨.mmaOp (lowerDstIndex out) (lowerSrcIndex a out) (lowerSrcIndex b out) init options,
      rfl, by simp [mirrors], rfl, rfl⟩
  | _fls, _atTop, .allocate a, _ => ⟨.allocate a, rfl, by simp [mirrors], rfl, rfl⟩
  | _fls, _atTop, .blockSync, _ => ⟨.blockSync, rfl, by simp [mirrors], rfl, rfl⟩
  | _fls, _atTop, .gridSync, _ => ⟨.gridSync, rfl, by simp [mirrors], rfl, rfl⟩
  | fls, _atTop, .forLoop fl body, h => by
    have hb : SExprList.noComm ctx body = true := by simpa [SExpr.noComm] using h
    obtain ⟨ls, h1, h2, h3, h4⟩ := lowerList_noComm ctx (fls ++ [fl]) false body hb
    refine ⟨.forLoop fl ls, ?_, ?_, ?_, ?_⟩
    · simp only [lowerOne, h1]
      rfl
    · simp [mirrors, h2]
    · simp [LExpr.nodeCount, SExpr.nodeCount, h3]
    · simp [LExpr.allocCount, SExpr.allocCount, h4]
  | fls, _atTop, .ifThenElse pred thenBody elseBody, h => by
    have hb : SExprList.noComm ctx thenBody = true ∧
        SExprList.noComm ctx elseBody = true := by
      simpa [SExpr.noComm] using h
    obtain ⟨ls1, h1, h2, h3, h4⟩ := lowerList_noComm ctx fls false thenBody hb.1
    obtain ⟨ls2, g1, g2, g3, g4⟩ := lowerList_noComm ctx fls false elseBody hb.2
    refine ⟨.ifThenElse pred ls1 ls2, ?_, ?_, ?_, ?_⟩
    · simp only [lowerOne, h1, g1]
      rfl
    · simp [mirrors, h2, g2]
    · simp [LExpr.nodeCount, SExpr.nodeCount, h3, g3]
    · simp [LExpr.allocCount, SExpr.allocCount, h4, g4]
/-- Pure re-indexing over a scope body. -/
theorem lowerList_noComm (ctx : Ctx) :
    ∀ (fls : List ForLoop) (atTop : Bool) (es : SExprList),
    SExprList.noComm ctx es = true →
    ∃ ls : LExprList, lowerList ctx fls atTop es = .ok (ls, .nil) ∧
      mirrorsList es ls = true ∧
      LExprList.nodeCount ls = SExprList.nodeCount es ∧
      LExprList.allocCount ls = SExprList.allocCount es
  | _fls, _atTop, .nil, _ => ⟨.nil, rfl, rfl, rfl, rfl⟩
  | fls, atTop, .cons e rest, h => by
    have hb : SExpr.noComm ctx e = true ∧ SExprList.noComm ctx rest = true := by
      simpa [SExprList.noComm] using h
    obtain ⟨l, e1, e2, e3, e4⟩ := lowerOne_noComm ctx fls atTop e hb.1
    obtain ⟨ls, r1, r2, r3, r4⟩ := lowerList_noComm ctx fls atTop rest hb.2
    refine ⟨.cons l ls, ?_, ?_, ?_, ?_⟩
    · simp only [lowerList, e1, r1]
      rfl
    · simp [mirrorsList, e2, r2]
    · simp [LExprList.nodeCount, SExprList.nodeCount, e3, r3]
    · simp [LExprList.allocCount, SExprList.allocCount, e4, r4]
end

/-- Pure re-indexing through `generate`. -/
theorem generate_noComm (ctx : Ctx) :
    ∀ es : SExprList, SExprList.noComm ctx es = true →
    ∃ ls : LExprList, generate ctx es = .ok ls ∧ mirrorsList es ls = true ∧
      LExprList.nodeCount ls = SExprList.nodeCount es ∧
      LExprList.allocCount ls = SExprList.allocCount es
  | .nil, _ => ⟨.nil, rfl, rfl, rfl, rfl⟩
  | .cons e rest, h => by
    have hb : SExpr.noComm ctx e = true ∧ SExprList.noComm ctx rest = true := by
      simpa [SExprList.noComm] using h
    obtain ⟨l, e1, e2, e3, e4⟩ := lowerOne_noComm ctx [] true e hb.1
    obtain ⟨ls, r1, r2, r3, r4⟩ := generate_noComm ctx rest hb.2
    refine ⟨.cons l ls, ?_, ?_, ?_, ?_⟩
    · simp only [generate, e1, r1]
      rfl
    · simp [mirrorsList, e2, r2]
    · simp [LExprList.nodeCount, SExprList.nodeCount, e3, r3]
    · simp [LExprList.allocCount, SExprList.allocCount, e4, r4]

/-- C6: lowering a scheduled fusion with no reductions and no
broadcasts spanning block/grid parallel dimensions succeeds and
produces an expression list that mirrors the source list node by node —
same kinds, same order, scope nesting preserved — with the same total
node count and no `Allocate` node inserted. -/
theorem c6_theorem (ctx : Ctx) (es : SExprList)
    (h : SExprList.noComm ctx es = true) :
    ∃ ls : LExprList, generate ctx es = .ok ls ∧ mirrorsList es ls = true ∧
      LExprList.nodeCount ls = SExprList.nodeCount es ∧
      LExprList.allocCount ls = SExprList.allocCount es :=
  generate_noComm ctx es h

/-- C6 (witness): the pure re-indexing contract at a concrete loop nest
with a branch, a pass-through allocation, and a non-parallel
broadcast. -/
theorem c6_witness :
    SExprList.noComm ctxPlain progPointwise = true ∧
    (∃ ls : LExprList, generate ctxPlain progPointwise = .ok ls ∧
      mirrorsList progPointwise ls = true ∧
      LExprList.nodeCount ls = SExprList.nodeCount progPointwise ∧
      LExprList.allocCount ls = SExprList.allocCount progPointwise) :=
  ⟨by decide, c6_theorem ctxPlain progPointwise (by decide)⟩

end NVF
